import Mathlib

/-!
Verification of the npmws / wurk monorepo tool against its design
specification.  The definitions below are shallow embeddings of the
TypeScript sources:

* `src/core/spawn/src/spawn.ts` — process spawn coordinator
  (PATH composition, close-event handling, blocking/registry discipline);
* `src/unnamed/part_001` — `getUpdatePatches`, the dependency range-sync pass;
* `src/unnamed/part_002` — the `bump` version strategy;
* `src/unnamed/part_003` — the pnpm adapter's `getPublished`;
* `src/core/wurk/src/command.ts` — command plugin loading.

External npm collaborators (the `semver` library, `npm-run-path`,
`cross-spawn`, dynamic import) are modelled at the interface granularity the
sources use them at; where a model of `semver` behaviour is needed for
concrete evaluation it is restricted to plain `major.minor.patch` versions
and single-comparator ranges, which is noted at each definition.
-/

namespace Npmws

/-! ### PATH composition (spawn.ts, `spawnAsync`)

The child environment's `PATH` is built in `spawnAsync` as

```
PATH: [ nodePath.dirname(process.execPath),
        npmRunPath({ cwd, path: '' }),
        env?.PATH ?? process.env.PATH,
        ...paths ]
        .filter((value): value is string => Boolean(value))
        .join(nodePath.delimiter)
```

`execDir` stands for `nodePath.dirname(process.execPath)`, `npmBin` for the
`npmRunPath(...)` result, and `envPATH` for `env?.PATH ?? process.env.PATH`
(`none` when both are undefined; `Boolean(undefined)` and `Boolean('')` are
both false, so an absent value is modelled as the removable empty string).
-/

/-- The `PATH` value composed by `spawnAsync` for the child process,
translated from `src/core/spawn/src/spawn.ts` lines 155–162.  Note the
source order: the inherited/overridden `PATH` comes **before** the
caller-supplied `paths` entries. -/
def composedPATH (execDir npmBin : String) (envPATH : Option String)
    (paths : List String) (delim : String) : String :=
  String.intercalate delim
    ((([execDir, npmBin, envPATH.getD ""] ++ paths).filter (fun v => v ≠ "")))

/-- The `PATH` order asserted by the specification sentence: runtime
executable directory, local-bin path, *then* the explicit caller-supplied
path entries, *then* the inherited/overridden `PATH`.  Written from the
spec's words, to be compared with `composedPATH` (from the source). -/
def specClaimPATH (execDir npmBin : String) (envPATH : Option String)
    (paths : List String) (delim : String) : String :=
  String.intercalate delim
    ((([execDir, npmBin] ++ paths ++ [envPATH.getD ""]).filter (fun v => v ≠ "")))

/-- The amended order, written from the corrected spec wording: runtime
executable directory, local-bin path, the inherited/overridden `PATH`, and
then the caller-supplied path entries, joined with the separator with empty
segments removed. -/
def specAmendedPATH (execDir npmBin : String) (envPATH : Option String)
    (paths : List String) (delim : String) : String :=
  String.intercalate delim
    ((([execDir, npmBin] ++ [envPATH.getD ""] ++ paths).filter (fun v => v ≠ "")))

/-! ### Close-event handling (spawn.ts, `spawnAsync` promise executor)

The `close` handler receives `(exitCode, signalCode)` from the child
process, where `exitCode` is `null` when the process was terminated by a
signal.  The handler normalizes `exitCode ??= 1`, rejects with
`SpawnExitCodeError(cmd, exitCode, signalCode)` when the normalized code is
non-zero and `allowNonZeroExitCode` is not set, and otherwise resolves a
result with `exitCode`, `signalCode` and `ok: exitCode === 0`.
-/

/-- The error thrown for a non-zero exit
(`SpawnExitCodeError(cmd, exitCode, signalCode)` in `src/core/spawn/src/error.ts`,
constructed at `spawn.ts` line 222). -/
structure SpawnExitCodeError where
  cmd : String
  exitCode : Int
  signalCode : Option String
  deriving DecidableEq, Repr

/-- The exit-relevant fields of a resolved `SpawnResult`
(`spawn.ts` lines 259–261). -/
structure SpawnResultCore where
  exitCode : Int
  signalCode : Option String
  ok : Bool
  deriving DecidableEq, Repr

/-- The `close` event handler of `spawnAsync`
(`src/core/spawn/src/spawn.ts` lines 203–265), restricted to its
control-flow and exit-code logic (logging and output flushing elided).
`exitCode? = none` models a `null` exit code (signal termination). -/
def handleClose (cmd : String) (exitCode? : Option Int) (signalCode : Option String)
    (allowNonZeroExitCode : Bool) : Except SpawnExitCodeError SpawnResultCore :=
  let exitCode := exitCode?.getD 1
  if exitCode ≠ 0 ∧ ¬allowNonZeroExitCode then
    .error ⟨cmd, exitCode, signalCode⟩
  else
    .ok ⟨exitCode, signalCode, exitCode = 0⟩

/-! ### A model of the `semver` npm library (external collaborator)

`src/unnamed/part_001` imports `minVersion` and `satisfies` from the
`semver` npm package.  That library is an external collaborator of this
repository; the model below reproduces its behaviour on the fragment the
range-sync pass exercises: plain `major.minor.patch` versions (no
prerelease/build components, digit runs taken at face value) and
single-comparator ranges `[= ^ ~ > >=] major.minor.patch`.  Outside this
fragment the model conservatively reports "does not parse", which makes
`satisfiesB` false there — mirroring `semver.satisfies`, which returns
`false` for an unparsable range or version. -/

structure SemVer where
  major : Nat
  minor : Nat
  patch : Nat
  deriving DecidableEq, Repr

/-- Numeric value of a run of decimal digits. -/
def digitsToNat (cs : List Char) : Nat :=
  cs.foldl (fun n c => n * 10 + (c.toNat - '0'.toNat)) 0

/-- Split a character list into its leading run of decimal digits and the
rest. -/
def splitDigits (cs : List Char) : List Char × List Char :=
  (cs.takeWhile Char.isDigit, cs.dropWhile Char.isDigit)

/-- Parse a full `major.minor.patch` version from characters. -/
def parseSemVerChars (cs : List Char) : Option SemVer :=
  let (d1, r1) := splitDigits cs
  if d1.isEmpty then none else
  match r1 with
  | '.' :: r1' =>
    let (d2, r2) := splitDigits r1'
    if d2.isEmpty then none else
    match r2 with
    | '.' :: r2' =>
      let (d3, r3) := splitDigits r2'
      if d3.isEmpty || !r3.isEmpty then none
      else some ⟨digitsToNat d1, digitsToNat d2, digitsToNat d3⟩
    | _ => none
  | _ => none

/-- Parse a full `major.minor.patch` version string. -/
def parseSemVer (s : String) : Option SemVer :=
  parseSemVerChars s.data

/-- Lexicographic `≤` on versions (the `semver` precedence order for
prerelease-free versions). -/
def verLe (a b : SemVer) : Bool :=
  decide (a.major < b.major
    ∨ (a.major = b.major
      ∧ (a.minor < b.minor ∨ (a.minor = b.minor ∧ a.patch ≤ b.patch))))

/-- The range comparators of the modelled fragment. -/
inductive RangePrefix
  | bare | eq | caret | tilde | gt | ge
  deriving DecidableEq, Repr

/-- Parse a single-comparator range `[= ^ ~ > >=] major.minor.patch`. -/
def parseRange (s : String) : Option (RangePrefix × SemVer) :=
  match s.data with
  | '>' :: '=' :: rest => (parseSemVerChars rest).map (fun v => (.ge, v))
  | '>' :: rest => (parseSemVerChars rest).map (fun v => (.gt, v))
  | '=' :: rest => (parseSemVerChars rest).map (fun v => (.eq, v))
  | '^' :: rest => (parseSemVerChars rest).map (fun v => (.caret, v))
  | '~' :: rest => (parseSemVerChars rest).map (fun v => (.tilde, v))
  | cs => (parseSemVerChars cs).map (fun v => (.bare, v))

/-- Does version `v` satisfy the comparator `(p, rv)`?  `^` and `~`
semantics follow `semver` for prerelease-free versions: `^a.b.c` allows
`≥ a.b.c` within the leftmost nonzero component, `~a.b.c` allows `≥ a.b.c`
with the same major and minor. -/
def rangeSatisfied (p : RangePrefix) (rv v : SemVer) : Bool :=
  match p with
  | .bare | .eq => v = rv
  | .ge => verLe rv v
  | .gt => verLe rv v && v ≠ rv
  | .tilde => verLe rv v && v.major = rv.major && v.minor = rv.minor
  | .caret =>
    verLe rv v &&
      (if rv.major > 0 then v.major = rv.major
       else if rv.minor > 0 then v.major = 0 && v.minor = rv.minor
       else v = rv)

/-- Model of `semver.satisfies(version, range)`: `false` when either side
does not parse. -/
def satisfiesB (version range : String) : Bool :=
  match parseRange range, parseSemVer version with
  | some (p, rv), some v => rangeSatisfied p rv v
  | _, _ => false

/-- Render a version back to a string (the `SemVer#format`/template
interpolation used by `` `~${minVersion(depRange)}` ``). -/
def verToString (v : SemVer) : String :=
  toString v.major ++ "." ++ toString v.minor ++ "." ++ toString v.patch

/-- Model of the template interpolation `` `${minVersion(range)}` ``:
`semver.minVersion` of the range rendered to a string, or `"null"` when the
range is invalid (JS interpolates `null` as the text `null`).  On this
fragment `minVersion` is the comparator's version, except for `>` where the
patch component is bumped. -/
def minVersionStr (range : String) : String :=
  match parseRange range with
  | some (p, rv) =>
    verToString (if p = .gt then ⟨rv.major, rv.minor, rv.patch + 1⟩ else rv)
  | none => "null"

/-! ### The range-sync pass (`getUpdatePatches`, src/unnamed/part_001)

`getUpdatePatches` walks the four dependency scopes of a workspace manifest
in source order and recomputes each recorded range for which a dependency
update has been registered.  The JS object-spread accumulation of the patch
is modelled as the list of `(scope, name, newRange)` entries in iteration
order; `undefined` (no patch at all) corresponds to the empty list.
-/

/-- `startsWith` on strings, by character-list prefix (used because the
built-in `String.startsWith` does not reduce in the kernel). -/
def strStartsWith (s p : String) : Bool :=
  p.data.isPrefixOf s.data

/-- Is `c` allowed in the prerelease tail of the prefix-matching regex
(`[^\s|=<>^~]`)?  `\s` is modelled by `Char.isWhitespace` (ASCII whitespace;
the JS class also contains exotic unicode spaces, which cannot occur in the
versions this pass handles). -/
def isTailChar (c : Char) : Bool :=
  !(c.isWhitespace || c = '|' || c = '=' || c = '<' || c = '>' || c = '^' || c = '~')

/-- Does `cs` match the version part of the prefix regex of
`src/unnamed/part_001` line 39:
`\d+(?:\.\d+(?:\.\d+(?:-[^\s|=<>^~]*)?)?)?$` (a bare or partial semantic
version, optionally with a prerelease tail)? -/
def matchesPartialVersion (cs : List Char) : Bool :=
  let (d1, r1) := splitDigits cs
  !d1.isEmpty &&
    (r1.isEmpty ||
      match r1 with
      | '.' :: r1' =>
        let (d2, r2) := splitDigits r1'
        !d2.isEmpty &&
          (r2.isEmpty ||
            match r2 with
            | '.' :: r2' =>
              let (d3, r3) := splitDigits r2'
              !d3.isEmpty &&
                (r3.isEmpty ||
                  match r3 with
                  | '-' :: tail => tail.all isTailChar
                  | _ => false)
            | _ => false)
      | _ => false)

/-- The operator prefix extracted from an existing range:
`depRange.match(/^([=^~]|>=?)?\d+(?:\.\d+(?:\.\d+(?:-[^\s|=<>^~]*)?)?)?$/u)?.[1] ?? '^'`
(`src/unnamed/part_001` line 39).  When the range does not match the
pattern, or matches with no explicit operator, the prefix defaults to
`^`. -/
def rangePrefix (s : String) : String :=
  match s.data with
  | '=' :: rest => if matchesPartialVersion rest then "=" else "^"
  | '^' :: _ => "^"
  | '~' :: rest => if matchesPartialVersion rest then "~" else "^"
  | '>' :: '=' :: rest => if matchesPartialVersion rest then ">=" else "^"
  | '>' :: rest => if matchesPartialVersion rest then ">" else "^"
  | _ => "^"

/-- Decision for one dependency entry: the loop body of `getUpdatePatches`
(`src/unnamed/part_001` lines 26–57).  Returns the rewritten range recorded
in the patch, or `none` when the entry is left unchanged (no registered
update, wildcard/file range, textually identical rewrite, or non-strict
churn suppression). -/
def entryPatch (updates : String → Option String) (strict : Bool)
    (depName depRange : String) : Option String :=
  match updates depName with
  | none => none
  | some newVersion =>
    if depRange = "*" ∨ depRange = "x" ∨ strStartsWith depRange "file:" = true then
      none
    else
      let newDepRange := rangePrefix depRange ++ newVersion
      if newDepRange = depRange then none
      else if ¬strict ∧ satisfiesB newVersion depRange = true
          ∧ satisfiesB newVersion ("~" ++ minVersionStr depRange) = true then none
      else some newDepRange

/-- The four dependency scopes, in the iteration order of
`src/unnamed/part_001` line 25. -/
inductive DepScope
  | dependencies | peerDependencies | optionalDependencies | devDependencies
  deriving DecidableEq, Repr

/-- The dependency scopes of a workspace manifest, each a `name ↦ range`
association list (JS object entries in insertion order). -/
structure WorkspaceDeps where
  dependencies : List (String × String)
  peerDependencies : List (String × String)
  optionalDependencies : List (String × String)
  devDependencies : List (String × String)

def WorkspaceDeps.scope (ws : WorkspaceDeps) : DepScope → List (String × String)
  | .dependencies => ws.dependencies
  | .peerDependencies => ws.peerDependencies
  | .optionalDependencies => ws.optionalDependencies
  | .devDependencies => ws.devDependencies

/-- The range-sync pass `getUpdatePatches` of `src/unnamed/part_001`
(lines 18–61): the patch entries produced over all four scopes, in
iteration order.  `updates` stands for lookup in the module-level
`dependencyUpdates` map. -/
def getUpdatePatches (updates : String → Option String) (ws : WorkspaceDeps)
    (strict : Bool) : List (DepScope × String × String) :=
  ([DepScope.dependencies, .peerDependencies, .optionalDependencies,
    .devDependencies]).flatMap fun sc =>
    (ws.scope sc).filterMap fun e =>
      (entryPatch updates strict e.1 e.2).map fun r => (sc, e.1, r)

/-! ### The `bump` version strategy (src/unnamed/part_002) -/

/-- The `semver.ReleaseType` strings accepted by the `bump` strategy. -/
inductive ReleaseType
  | major | minor | patch | premajor | preminor | prepatch | prerelease
  deriving DecidableEq, Repr

/-- The version-relevant state of a workspace for the `bump` strategy:
`version` is `workspace.version` (`none` when absent) and `configVersion`
the `version` field of the mutable config document. -/
structure WorkspaceVer where
  version : Option String
  configVersion : Option String
  deriving DecidableEq, Repr

/-- The `bump` strategy of `src/unnamed/part_002` (lines 10–26).  The
composite `new semver.SemVer(version).inc(releaseType, preid).format()`
from the external `semver` library is passed in as `incFn`; its `Except`
models the constructor or `inc` throwing (e.g. on an invalid version), and
`config.at('version').set(...)` becomes updating `configVersion`.  A falsy
`version` (absent, or the empty string) returns before touching `incFn` or
the config. -/
def bump (incFn : String → ReleaseType → Option String → Except String String)
    (ws : WorkspaceVer) (releaseType : ReleaseType) (preid : Option String) :
    Except String WorkspaceVer :=
  match ws.version with
  | none => .ok ws
  | some v =>
    if v = "" then .ok ws
    else do
      let newVersion ← incFn v releaseType preid
      return { ws with configVersion := some newVersion }

/-! ### Spawn coordinator registry (spawn.ts, `spawn`)

The module-level `promises` record holds the set of all in-flight spawn
promises and a single `blocking` reference.  A request with
`input === 'inherit' || output === 'inherit'` chains behind
`Promise.allSettled(promises.all)` (a snapshot of the current registry) and
records itself as `promises.blocking`; any other request chains behind
`Promise.allSettled([promises.blocking])`.  Every request adds its promise
to `promises.all`; on settlement the promise removes itself from the
registry and clears `promises.blocking` only if it still refers to it.
Promises are identified by `Nat` ids; `Promise.allSettled(ws).then(start)`
means the child process starts only after every promise in the wait set
`ws` has settled, so the per-request wait set captures the "does not start
until ... settled" discipline. -/

/-- The module-level `promises` record of `src/core/spawn/src/spawn.ts`
(lines 62–68). -/
structure CoordState where
  all : List Nat
  blocking : Option Nat
  deriving DecidableEq, Repr

/-- A spawn request (`spawn`, `src/core/spawn/src/spawn.ts` lines 70–108):
returns the updated registry state together with the request's wait set. -/
def requestSpawn (s : CoordState) (id : Nat) (exclusive : Bool) :
    CoordState × List Nat :=
  if exclusive then (⟨s.all ++ [id], some id⟩, s.all)
  else (⟨s.all ++ [id], s.blocking⟩, s.blocking.toList)

/-- Settlement (success or failure) of the spawn promise `id`: the
`finally` handlers of `spawn` remove the promise from the registry and
clear the blocking reference only when it still is this promise
(`if (promises.blocking === promise)`). -/
def settleSpawn (s : CoordState) (id : Nat) : CoordState :=
  ⟨s.all.filter (fun x => x ≠ id),
   if s.blocking = some id then none else s.blocking⟩

/-! ### JSON values -/

/-- Parsed JSON values (the payloads flowing through `JsonAccessor`). -/
inductive Json where
  | null
  | bool (b : Bool)
  | num (n : Int)
  | str (s : String)
  | arr (elements : List Json)
  | obj (fields : List (String × Json))

/-! ### Command plugin loading (src/core/wurk/src/command.ts) -/

/-- Outcome of `importRelative(packageId, ...)` followed by inspecting and
invoking the default export, abstracting the dynamic-import collaborator:
`importThrows` — the import itself throws; `notFunction` — the module's
default export is not a function; `factoryThrows` — calling the factory
throws (caught by the surrounding `try`); `factoryReturns v` — the factory
call returns `v`. -/
inductive ImportOutcome (α : Type)
  | importThrows
  | notFunction
  | factoryThrows
  | factoryReturns (value : α)

/-- Which `log.error` path rejected a plugin. -/
inductive PluginLoadFailure
  | invalidFactory
  | invalidCommand
  | threw
  deriving DecidableEq, Repr

/-- `loadCommandPlugin` (`src/core/wurk/src/command.ts` lines 137–159).
The `isCommand` structural check (defined elsewhere in the module) is a
parameter, so the results hold for every shape predicate; `.error e` models
`return null` preceded by the corresponding `log.error`. -/
def loadCommandPlugin {α : Type} (isCommand : α → Bool)
    (env : String → ImportOutcome α) (packageId : String) :
    Except PluginLoadFailure α :=
  match env packageId with
  | .importThrows => .error .threw
  | .notFunction => .error .invalidFactory
  | .factoryThrows => .error .threw
  | .factoryReturns value =>
    if isCommand value then .ok value else .error .invalidCommand

/-- Does the character list contain `p` as a contiguous sublist? -/
def hasInfix : List Char → List Char → Bool
  | [], p => p.isEmpty
  | c :: rest, p => p.isPrefixOf (c :: rest) || hasInfix rest p

/-- Substring test on strings. -/
def strContains (s p : String) : Bool :=
  hasInfix s.data p.data

/-- The plugin naming convention
`/^(?:(?:.*\/)?w[eu]rk-command-|@(?:werk|wurk)\/command-).*$/u`
(`command.ts` line 178): the identifier starts with
`werk-command-`/`wurk-command-` (possibly after a `/`-terminated prefix) or
with `@werk/command-`/`@wurk/command-`.  (`.` in the regex excludes
newlines; package identifiers contain none.) -/
def isPluginPackageId (s : String) : Bool :=
  strStartsWith s "werk-command-" || strStartsWith s "wurk-command-"
    || strContains s "/werk-command-" || strContains s "/wurk-command-"
    || strStartsWith s "@werk/command-" || strStartsWith s "@wurk/command-"

/-- String order by character comparison (the default JS array sort for the
ASCII package identifiers involved). -/
def strLeB (a b : String) : Bool :=
  decide (a ≤ b)

/-- The candidate plugin package ids of `loadCommandPlugins`
(`command.ts` lines 165–181): dependency-scope keys matching the naming
convention, then the explicit string entries of the `wurk.commands` config
array, deduplicated keeping first occurrences (`new Set`) and sorted. -/
def pluginPackageIds (depKeys : List String) (wurkCommands : Json) :
    List String :=
  let explicitPackageIds :=
    (match wurkCommands with | .arr xs => xs | _ => []).filterMap
      fun j => match j with | Json.str s => some s | _ => (none : Option String)
  ((depKeys.filter isPluginPackageId ++ explicitPackageIds).eraseDups).mergeSort
    strLeB

/-- `loadCommandPlugins` (`command.ts` lines 161–186): load every candidate
and keep the non-null results. -/
def loadCommandPlugins {α : Type} (isCommand : α → Bool)
    (env : String → ImportOutcome α) (depKeys : List String)
    (wurkCommands : Json) : List α :=
  ((pluginPackageIds depKeys wurkCommands).map
    (loadCommandPlugin isCommand env)).filterMap Except.toOption

/-- A concrete plugin-loading environment exercising every load path: a
throwing import, a non-function default export, a throwing factory, a
factory product failing the shape check (`0`), and one passing it (`1`). -/
def demoPluginEnv : String → ImportOutcome Nat := fun p =>
  if p = "pa" then .importThrows
  else if p = "pb" then .notFunction
  else if p = "pc" then .factoryThrows
  else if p = "pd" then .factoryReturns 0
  else .factoryReturns 1

/-! ### `Pnpm.getPublished` (src/unnamed/part_003) -/

/-- Published-version metadata (`PackageMetadata` of the package-manager
adapter protocol). -/
structure PackageMetadata where
  version : String
  gitHead : Option String
  deriving DecidableEq, Repr

/-- The pnpm `info` query arguments of `Pnpm.getPublished`
(`src/unnamed/part_003` lines 38–45): the query is bounded by
`<= version`. -/
def pnpmInfoArgs (id version : String) : List String :=
  ["info", "--quiet", "--json", id ++ "@<=" ++ version, "version", "gitHead"]

/-- First field with the given key in a JS object (parsed JSON objects have
unique keys). -/
def jsonField : List (String × Json) → String → Option Json
  | [], _ => none
  | (k, v) :: rest, key => if k = key then some v else jsonField rest key

/-- The `version` of a registry entry when the entry passes the filter
`entry != null && typeof entry === 'object' && 'version' in entry &&
typeof entry.version === 'string'` (`part_003` lines 54–61); the outer
`none` models a JS `undefined` entry (e.g. unparsable stdout). -/
def entryVersion? (entry : Option Json) : Option String :=
  match entry with
  | some (.obj fields) =>
    match jsonField fields "version" with
    | some (.str s) => some s
    | _ => none
  | _ => none

/-- `typeof info.gitHead === 'string' ? info.gitHead : null`
(`part_003` line 70). -/
def entryGitHead (entry : Option Json) : Option String :=
  match entry with
  | some (.obj fields) =>
    match jsonField fields "gitHead" with
    | some (.str s) => some s
    | _ => none
  | _ => none

/-- Sort key for `semver.rcompare(a.version, b.version)`.  An unparsable
version (on which the real `rcompare` would throw inside `Array#sort`) is
given the smallest key; the theorem about `getPublishedFrom` restricts
itself to parseable versions. -/
def entryKey (entry : Option Json) : SemVer :=
  ((entryVersion? entry).bind parseSemVer).getD ⟨0, 0, 0⟩

/-- Descending sort precedence: `a` may precede `b` when `a`'s version is
not lower. -/
def entryGe (a b : Option Json) : Bool :=
  verLe (entryKey b) (entryKey a)

/-- Stable insertion by descending version: `x` is placed before the first
element it is `entryGe`-above-or-equal. -/
def insertByGe (x : Option Json) : List (Option Json) → List (Option Json)
  | [] => [x]
  | y :: ys => if entryGe x y then x :: y :: ys else y :: insertByGe x ys

/-- Stable sort by descending version, modelling
`.sort((a, b) => semver.rcompare(a.version, b.version))`: on a total
preorder every stable comparator sort (the JS engine's included) produces
this result. -/
def sortByGe : List (Option Json) → List (Option Json)
  | [] => []
  | x :: xs => insertByGe x (sortByGe xs)

/-- `Array.isArray(value) ? value : [value]` over the unwrapped stdout JSON
(`part_003` line 52); `none` is an `undefined` unwrap. -/
def registryEntries (stdoutJson : Option Json) : List (Option Json) :=
  match stdoutJson with
  | some (.arr xs) => xs.map some
  | v => [v]

/-- The entries surviving the string-`version` filter
(`part_003` lines 53–61). -/
def validRegistryEntries (stdoutJson : Option Json) : List (Option Json) :=
  (registryEntries stdoutJson).filter fun e => (entryVersion? e).isSome

/-- Post-spawn processing of `Pnpm.getPublished`
(`src/unnamed/part_003` lines 35–72): `null` on a failed query, otherwise
the first entry of the valid entries sorted by descending version, with
`gitHead` taken from it when it is a string.  `ok`/`stdoutJson` are the
fields of the awaited spawn result. -/
def getPublishedFrom (ok : Bool) (stdoutJson : Option Json) :
    Option PackageMetadata :=
  if !ok then none
  else
    match sortByGe (validRegistryEntries stdoutJson) with
    | [] => none
    | info :: _ => some ⟨(entryVersion? info).getD "", entryGitHead info⟩

end Npmws

namespace Npmws

/-- C1 counterexample: with caller-supplied path entry `/extra` and inherited
`PATH` `/usr/bin`, the source puts `/extra` *after* `/usr/bin`, while the
claim puts it before; the two composed strings differ. -/
theorem composedPATH_order_counterexample :
    composedPATH "/node" "/repo/node_modules/.bin" (some "/usr/bin") ["/extra"] ":"
      ≠ specClaimPATH "/node" "/repo/node_modules/.bin" (some "/usr/bin") ["/extra"] ":" := by
  decide

/-- C1 (amended): for every spawn invocation, the composed `PATH` is the
runtime executable's directory, the local-bin path, the inherited/overridden
`PATH`, and then the explicit caller-supplied path entries, joined with the
OS path separator with empty segments removed. -/
theorem composedPATH_spec (execDir npmBin : String) (envPATH : Option String)
    (paths : List String) (delim : String) :
    composedPATH execDir npmBin envPATH paths delim
      = specAmendedPATH execDir npmBin envPATH paths delim := by
  simp [composedPATH, specAmendedPATH]

/-- C5: a resolved result has `ok = true` iff its exit code is `0`; a
non-zero exit code without `allowNonZeroExitCode` rejects with an exit-code
error carrying the command, the exit code and the signal; with
`allowNonZeroExitCode` the same close resolves to a result instead. -/
theorem handleClose_exit_semantics (cmd : String) (n : Int) (signalCode : Option String) :
    (∀ exitCode? allow r, handleClose cmd exitCode? signalCode allow = .ok r →
      (r.ok = true ↔ r.exitCode = 0)) ∧
    (n ≠ 0 → handleClose cmd (some n) signalCode false = .error ⟨cmd, n, signalCode⟩) ∧
    (n ≠ 0 → handleClose cmd (some n) signalCode true = .ok ⟨n, signalCode, false⟩) := by
  refine ⟨?_, ?_, ?_⟩
  · intro exitCode? allow r h
    unfold handleClose at h
    by_cases h0 : exitCode?.getD 1 = 0
    · simp [h0] at h
      subst h
      simp [h0]
    · rcases allow with _ | _
      · simp [h0] at h
      · simp [h0] at h
        subst h
        simp [h0]
  · intro hn
    simp [handleClose, hn]
  · intro hn
    simp [handleClose, hn]

/-- C5 witness: instantiated at exit code 2. -/
theorem handleClose_exit_semantics_witness :
    (2 : Int) ≠ 0 ∧
    (handleClose "git" (some 2) none false = .error ⟨"git", 2, none⟩ ∧
     handleClose "git" (some 2) none true = .ok ⟨2, none, false⟩) := by
  refine ⟨by decide, (handleClose_exit_semantics "git" 2 none).2.1 (by decide),
    (handleClose_exit_semantics "git" 2 none).2.2 (by decide)⟩

/-- C10: a `close` with a `null` exit code (signal termination) is
normalized to exit code 1: without `allowNonZeroExitCode` it rejects with an
exit-code error carrying code 1, and with it the resolved result has numeric
exit code 1 and `ok = false`. -/
theorem handleClose_null_exitCode (cmd : String) (signalCode : Option String) :
    handleClose cmd none signalCode false = .error ⟨cmd, 1, signalCode⟩ ∧
    handleClose cmd none signalCode true = .ok ⟨1, signalCode, false⟩ := by
  constructor <;> simp [handleClose]

/-- Patch entries of `getUpdatePatches` correspond exactly to manifest
entries on which `entryPatch` fires (shared helper). -/
theorem mem_getUpdatePatches {updates : String → Option String}
    {ws : WorkspaceDeps} {strict : Bool} {sc : DepScope} {nm r' : String} :
    (sc, nm, r') ∈ getUpdatePatches updates ws strict ↔
      ∃ rg, (nm, rg) ∈ ws.scope sc ∧ entryPatch updates strict nm rg = some r' := by
  constructor
  · intro h
    simp only [getUpdatePatches, List.mem_flatMap, List.mem_filterMap,
      Option.map_eq_some', Prod.mk.injEq] at h
    obtain ⟨sc', _, e, he, r, hp, hsc, hnm, hr⟩ := h
    subst hsc hnm hr
    exact ⟨e.2, he, hp⟩
  · rintro ⟨rg, hmem, hp⟩
    simp only [getUpdatePatches, List.mem_flatMap, List.mem_filterMap,
      Option.map_eq_some', Prod.mk.injEq]
    exact ⟨sc, by cases sc <;> simp, (nm, rg), hmem, r', hp, rfl, rfl, rfl⟩

/-- C6: a dependency entry whose recorded range is `*`, `x`, or a `file:`
reference is never rewritten by `getUpdatePatches`, regardless of the
registered update or strict mode; conversely each produced patch stems from
a non-wildcard, non-file entry. -/
theorem getUpdatePatches_wildcard_frame
    (updates : String → Option String) (ws : WorkspaceDeps) (strict : Bool)
    (nm rg : String) :
    ((rg = "*" ∨ rg = "x" ∨ strStartsWith rg "file:" = true) →
      entryPatch updates strict nm rg = none) ∧
    (∀ sc r', (sc, nm, r') ∈ getUpdatePatches updates ws strict →
      ∃ rg', (nm, rg') ∈ ws.scope sc ∧
        ¬(rg' = "*" ∨ rg' = "x" ∨ strStartsWith rg' "file:" = true) ∧
        entryPatch updates strict nm rg' = some r') := by
  constructor
  · intro h
    rcases hu : updates nm with _ | v <;> simp [entryPatch, hu, h]
  · intro sc r' h
    obtain ⟨rg', hmem, hp⟩ := mem_getUpdatePatches.mp h
    refine ⟨rg', hmem, ?_, hp⟩
    intro hw
    rcases hu : updates nm with _ | v <;> simp [entryPatch, hu, hw] at hp

/-- C6 witness: a `*` range and a `file:` range are left alone even in
strict mode, while an ordinary caret range in the same workspace is
patched. -/
theorem getUpdatePatches_wildcard_frame_witness :
    entryPatch (fun _ => some "9.9.9") true "a" "*" = none ∧
    entryPatch (fun _ => some "9.9.9") true "b" "file:../b" = none ∧
    (∃ rg', ("c", rg') ∈ WorkspaceDeps.scope ⟨[("c", "^1.0.0")], [], [], []⟩ .dependencies ∧
      ¬(rg' = "*" ∨ rg' = "x" ∨ strStartsWith rg' "file:" = true) ∧
      entryPatch (fun _ => some "9.9.9") true "c" rg' = some "^9.9.9") := by
  refine ⟨?_, ?_, ?_⟩
  · exact (getUpdatePatches_wildcard_frame (fun _ => some "9.9.9")
      ⟨[], [], [], []⟩ true "a" "*").1 (by decide)
  · exact (getUpdatePatches_wildcard_frame (fun _ => some "9.9.9")
      ⟨[], [], [], []⟩ true "b" "file:../b").1 (by decide)
  · exact (getUpdatePatches_wildcard_frame (fun _ => some "9.9.9")
      ⟨[("c", "^1.0.0")], [], [], []⟩ true "c" "x").2 .dependencies "^9.9.9" (by decide)

/-- C3: every range rewritten by `getUpdatePatches` is replaced by the
existing range's operator prefix (per `rangePrefix`, which matches
`=`/`^`/`~`/`>`/`>=` against a bare or partial semantic version and
defaults to `^`) concatenated with the registered new version. -/
theorem getUpdatePatches_prefix_preservation
    (updates : String → Option String) (ws : WorkspaceDeps) (strict : Bool)
    (sc : DepScope) (nm r' : String) :
    (sc, nm, r') ∈ getUpdatePatches updates ws strict →
      ∃ rg v, (nm, rg) ∈ ws.scope sc ∧ updates nm = some v ∧
        r' = rangePrefix rg ++ v := by
  intro h
  obtain ⟨rg, hmem, hp⟩ := mem_getUpdatePatches.mp h
  rcases hu : updates nm with _ | v
  · simp [entryPatch, hu] at hp
  · refine ⟨rg, v, hmem, rfl, ?_⟩
    simp only [entryPatch, hu] at hp
    split_ifs at hp <;> simp_all

/-- C3 witness: `^1.2.3` becomes `^1.5.0`, `~1.2.3` becomes `~1.5.0`,
`>=1.2.3` becomes `>=1.5.0`, and a bare `1.2.3` becomes `^1.5.0`; the
produced patch for the caret entry indeed carries `rangePrefix` of the old
range plus the new version. -/
theorem getUpdatePatches_prefix_preservation_witness :
    getUpdatePatches (fun n => if n = "a" then some "1.5.0" else none)
        ⟨[("a", "^1.2.3")], [("a", "~1.2.3")], [("a", ">=1.2.3")], [("a", "1.2.3")]⟩ false
      = [(.dependencies, "a", "^1.5.0"), (.peerDependencies, "a", "~1.5.0"),
         (.optionalDependencies, "a", ">=1.5.0"), (.devDependencies, "a", "^1.5.0")] ∧
    (∃ rg v,
      ("a", rg) ∈ WorkspaceDeps.scope
        ⟨[("a", "^1.2.3")], [("a", "~1.2.3")], [("a", ">=1.2.3")], [("a", "1.2.3")]⟩ .dependencies ∧
      (fun n => if n = "a" then some "1.5.0" else none) "a" = some v ∧
      "^1.5.0" = rangePrefix rg ++ v) := by
  refine ⟨by decide, ?_⟩
  exact getUpdatePatches_prefix_preservation
    (fun n => if n = "a" then some "1.5.0" else none)
    ⟨[("a", "^1.2.3")], [("a", "~1.2.3")], [("a", ">=1.2.3")], [("a", "1.2.3")]⟩ false
    .dependencies "a" "^1.5.0" (by decide)

/-- C2 counterexample: with range `~1.2.5` and new version `1.2.5` the new
version satisfies both the range and `~` + its minimum version, yet strict
mode produces **no** patch (the rewrite `~1.2.5` is textually identical to
the range), contradicting the claim that such inputs produce the rewritten
range under strict mode. -/
theorem getUpdatePatches_strict_counterexample :
    satisfiesB "1.2.5" "~1.2.5" = true ∧
    satisfiesB "1.2.5" ("~" ++ minVersionStr "~1.2.5") = true ∧
    getUpdatePatches (fun n => if n = "a" then some "1.2.5" else none)
      ⟨[("a", "~1.2.5")], [], [], []⟩ true = [] := by
  decide

/-- C2 (amended): for a processed (non-wildcard, non-file) entry, with
strict off, a new version satisfying both the existing range and `~` + its
minimum version yields no patch; with strict on the rewritten range is
produced provided it differs textually from the existing range (a textually
identical rewrite is never emitted in either mode). -/
theorem getUpdatePatches_churn_suppression
    (updates : String → Option String) (nm rg v : String) :
    (updates nm = some v → satisfiesB v rg = true →
      satisfiesB v ("~" ++ minVersionStr rg) = true →
      getUpdatePatches updates ⟨[(nm, rg)], [], [], []⟩ false = []) ∧
    (updates nm = some v →
      ¬(rg = "*" ∨ rg = "x" ∨ strStartsWith rg "file:" = true) →
      rangePrefix rg ++ v ≠ rg →
      getUpdatePatches updates ⟨[(nm, rg)], [], [], []⟩ true
        = [(.dependencies, nm, rangePrefix rg ++ v)]) := by
  constructor
  · intro hu hs1 hs2
    have hp : entryPatch updates false nm rg = none := by
      simp only [entryPatch, hu]
      split_ifs with h1 h2 h3
      · rfl
      · rfl
      · rfl
      · exact absurd ⟨by simp, hs1, hs2⟩ h3
    simp [getUpdatePatches, WorkspaceDeps.scope, hp]
  · intro hu hw hne
    have hp : entryPatch updates true nm rg = some (rangePrefix rg ++ v) := by
      have h3 : ¬(¬True ∧ satisfiesB v rg = true ∧
          satisfiesB v ("~" ++ minVersionStr rg) = true) := by simp
      simp only [entryPatch, hu]
      rw [if_neg hw, if_neg hne, if_neg h3]
    simp [getUpdatePatches, WorkspaceDeps.scope, hp]

/-- C2 witness: range `^1.2.0` with new version `1.2.5` is left unchanged in
non-strict mode and becomes `^1.2.5` in strict mode. -/
theorem getUpdatePatches_churn_suppression_witness :
    getUpdatePatches (fun n => if n = "a" then some "1.2.5" else none)
        ⟨[("a", "^1.2.0")], [], [], []⟩ false = [] ∧
    getUpdatePatches (fun n => if n = "a" then some "1.2.5" else none)
        ⟨[("a", "^1.2.0")], [], [], []⟩ true = [(.dependencies, "a", "^1.2.5")] := by
  constructor
  · exact (getUpdatePatches_churn_suppression
      (fun n => if n = "a" then some "1.2.5" else none) "a" "^1.2.0" "1.2.5").1
      (by decide) (by decide) (by decide)
  · have h := (getUpdatePatches_churn_suppression
      (fun n => if n = "a" then some "1.2.5" else none) "a" "^1.2.0" "1.2.5").2
      (by decide) (by decide) (by decide)
    rw [show rangePrefix "^1.2.0" ++ "1.2.5" = "^1.2.5" from by decide] at h
    exact h

/-- C7: the `bump` strategy on a workspace without a version is a no-op for
every release type and preid: it returns successfully (never throws) and
leaves the config document untouched, whatever the semver collaborator
would do. -/
theorem bump_no_version
    (incFn : String → ReleaseType → Option String → Except String String)
    (ws : WorkspaceVer) (releaseType : ReleaseType) (preid : Option String) :
    ws.version = none → bump incFn ws releaseType preid = .ok ws := by
  intro h
  simp [bump, h]

/-- C7 witness: even with a semver model that always throws, bumping a
version-less workspace succeeds and changes nothing. -/
theorem bump_no_version_witness :
    bump (fun _ _ _ => .error "invalid version") ⟨none, some "1.0.0"⟩
      .premajor (some "beta") = .ok ⟨none, some "1.0.0"⟩ :=
  bump_no_version _ _ _ _ rfl

/-- C4 counterexample: exclusive spawn 0 is requested first (becoming the
recorded blocking operation), then exclusive spawn 1 is requested while 0
is still in flight; the blocking reference now names 1, so 0 is not
recorded as the blocking operation for the duration of its execution. -/
theorem spawn_blocking_duration_counterexample :
    0 ∈ (requestSpawn (requestSpawn ⟨[], none⟩ 0 true).1 1 true).1.all ∧
    (requestSpawn (requestSpawn ⟨[], none⟩ 0 true).1 1 true).1.blocking ≠ some 0 := by
  decide

/-- C4 (amended): an exclusive spawn request's wait set is the entire
current in-flight registry and it records itself as the blocking operation
from request time until it settles — settlement of any other operation or
a non-exclusive request leaves it recorded, its own settlement clears it,
and only a later exclusive request replaces it; a non-exclusive request's
wait set is exactly the currently recorded blocking operation (if any),
not the other in-flight operations. -/
theorem requestSpawn_discipline (s : CoordState) (id j : Nat) :
    (requestSpawn s id true).2 = s.all ∧
    (requestSpawn s id true).1.blocking = some id ∧
    (requestSpawn s id false).2 = s.blocking.toList ∧
    (requestSpawn s id false).1.blocking = s.blocking ∧
    (j ≠ id → (settleSpawn (requestSpawn s id true).1 j).blocking = some id) ∧
    (requestSpawn (requestSpawn s id true).1 j false).1.blocking = some id ∧
    (settleSpawn (requestSpawn s id true).1 id).blocking = none := by
  refine ⟨rfl, rfl, rfl, rfl, ?_, rfl, by simp [settleSpawn, requestSpawn]⟩
  intro hj
  simp [settleSpawn, requestSpawn, (Ne.symm hj)]

/-- C4 witness: with operations 5 in flight, exclusive request 7 waits for
`[5]`, records itself as blocking, survives 5 settling, and is cleared by
its own settlement; a non-exclusive request then waits only for 7. -/
theorem requestSpawn_discipline_witness :
    (requestSpawn ⟨[5], none⟩ 7 true).2 = [5] ∧
    (requestSpawn ⟨[5], none⟩ 7 true).1.blocking = some 7 ∧
    (settleSpawn (requestSpawn ⟨[5], none⟩ 7 true).1 5).blocking = some 7 ∧
    (requestSpawn (requestSpawn ⟨[5], none⟩ 7 true).1 5 false).1.blocking = some 7 ∧
    (settleSpawn (requestSpawn ⟨[5], none⟩ 7 true).1 7).blocking = none := by
  have h := requestSpawn_discipline ⟨[5], none⟩ 7 5
  exact ⟨h.1, h.2.1, h.2.2.2.2.1 (by decide), h.2.2.2.2.2.1, h.2.2.2.2.2.2⟩

/-- C9: a candidate plugin whose import throws, whose default export is not
a function, whose factory call throws, or whose factory product fails the
command-shape check is excluded with the corresponding logged failure; a
product passing the check loads; and `loadCommandPlugins` returns exactly
the successfully loaded commands of its candidate list, so one plugin's
failure never affects the others. -/
theorem loadCommandPlugins_isolation {α : Type} (isCommand : α → Bool)
    (env : String → ImportOutcome α) (depKeys : List String)
    (wurkCommands : Json) (pid : String) (v : α) :
    (env pid = .importThrows →
      loadCommandPlugin isCommand env pid = .error .threw) ∧
    (env pid = .notFunction →
      loadCommandPlugin isCommand env pid = .error .invalidFactory) ∧
    (env pid = .factoryThrows →
      loadCommandPlugin isCommand env pid = .error .threw) ∧
    (env pid = .factoryReturns v → isCommand v = false →
      loadCommandPlugin isCommand env pid = .error .invalidCommand) ∧
    (env pid = .factoryReturns v → isCommand v = true →
      loadCommandPlugin isCommand env pid = .ok v) ∧
    (loadCommandPlugins isCommand env depKeys wurkCommands
      = (pluginPackageIds depKeys wurkCommands).filterMap
          fun p => (loadCommandPlugin isCommand env p).toOption) := by
  refine ⟨?_, ?_, ?_, ?_, ?_, ?_⟩
  · intro h; simp [loadCommandPlugin, h]
  · intro h; simp [loadCommandPlugin, h]
  · intro h; simp [loadCommandPlugin, h]
  · intro h hc; simp [loadCommandPlugin, h, hc]
  · intro h hc; simp [loadCommandPlugin, h, hc]
  · simp only [loadCommandPlugins, List.filterMap_map]
    rfl

/-- C9 witness: five candidate outcomes — import throwing, a non-function
default export, a throwing factory, an invalid product, and a valid
product — produce the corresponding exclusions and the single success. -/
theorem loadCommandPlugins_isolation_witness :
    (loadCommandPlugin (fun n => decide (n = 1)) demoPluginEnv "pa"
      = .error .threw) ∧
    (loadCommandPlugin (fun n => decide (n = 1)) demoPluginEnv "pb"
      = .error .invalidFactory) ∧
    (loadCommandPlugin (fun n => decide (n = 1)) demoPluginEnv "pc"
      = .error .threw) ∧
    (loadCommandPlugin (fun n => decide (n = 1)) demoPluginEnv "pd"
      = .error .invalidCommand) ∧
    (loadCommandPlugin (fun n => decide (n = 1)) demoPluginEnv "pe"
      = .ok 1) ∧
    (loadCommandPlugins (fun n => decide (n = 1)) demoPluginEnv
        ["wurk-command-pd"] (.arr [.str "pe"])
      = (pluginPackageIds ["wurk-command-pd"] (.arr [.str "pe"])).filterMap
          fun p => (loadCommandPlugin (fun n => decide (n = 1)) demoPluginEnv p).toOption) := by
  refine ⟨?_, ?_, ?_, ?_, ?_,
    (loadCommandPlugins_isolation (fun n => decide (n = 1)) demoPluginEnv
      ["wurk-command-pd"] (.arr [.str "pe"]) "pa" 0).2.2.2.2.2⟩
  · exact (loadCommandPlugins_isolation (fun n => decide (n = 1)) demoPluginEnv
      [] .null "pa" 0).1 rfl
  · exact (loadCommandPlugins_isolation (fun n => decide (n = 1)) demoPluginEnv
      [] .null "pb" 0).2.1 rfl
  · exact (loadCommandPlugins_isolation (fun n => decide (n = 1)) demoPluginEnv
      [] .null "pc" 0).2.2.1 rfl
  · exact (loadCommandPlugins_isolation (fun n => decide (n = 1)) demoPluginEnv
      [] .null "pd" 0).2.2.2.1 rfl (by decide)
  · exact (loadCommandPlugins_isolation (fun n => decide (n = 1)) demoPluginEnv
      [] .null "pe" 1).2.2.2.2.1 rfl (by decide)

/-- `verLe` is reflexive (shared helper). -/
theorem verLe_refl (a : SemVer) : verLe a a = true := by
  simp [verLe]

/-- `verLe` is transitive (shared helper). -/
theorem verLe_trans {a b c : SemVer} :
    verLe a b = true → verLe b c = true → verLe a c = true := by
  simp only [verLe, decide_eq_true_eq]
  omega

/-- `verLe` is total (shared helper). -/
theorem verLe_total (a b : SemVer) : verLe a b = true ∨ verLe b a = true := by
  simp only [verLe, decide_eq_true_eq]
  omega

/-- Inserting never yields the empty list (shared helper). -/
theorem insertByGe_ne_nil (x : Option Json) (l : List (Option Json)) :
    insertByGe x l ≠ [] := by
  cases l with
  | nil => simp [insertByGe]
  | cons y ys =>
    simp only [insertByGe]
    split <;> simp

/-- A list with an empty descending sort is empty (shared helper). -/
theorem sortByGe_eq_nil {l : List (Option Json)} :
    sortByGe l = [] → l = [] := by
  cases l with
  | nil => intro _; rfl
  | cons x xs =>
    intro h
    rw [sortByGe] at h
    exact absurd h (insertByGe_ne_nil _ _)

/-- The head of the descending sort belongs to the list and dominates every
element (shared helper). -/
theorem sortByGe_head_max :
    ∀ {l t : List (Option Json)} {h : Option Json}, sortByGe l = h :: t →
      h ∈ l ∧ ∀ x ∈ l, entryGe h x = true := by
  intro l
  induction l with
  | nil => intro h t hs; simp [sortByGe] at hs
  | cons x xs ih =>
    intro h t hs
    rw [sortByGe] at hs
    rcases hxs : sortByGe xs with _ | ⟨y, ys⟩
    · rw [hxs] at hs
      simp only [insertByGe, List.cons.injEq] at hs
      obtain ⟨rfl, rfl⟩ := hs
      have hnil : xs = [] := sortByGe_eq_nil hxs
      subst hnil
      refine ⟨by simp, ?_⟩
      intro z hz
      rw [List.mem_singleton] at hz
      subst hz
      exact verLe_refl _
    · rw [hxs] at hs
      obtain ⟨hy_mem, hy_max⟩ := ih hxs
      rw [insertByGe] at hs
      by_cases hxy : entryGe x y = true
      · rw [if_pos hxy] at hs
        obtain ⟨rfl, rfl⟩ := List.cons.injEq .. |>.mp hs
        refine ⟨List.mem_cons_self _ _, ?_⟩
        intro z hz
        rcases List.mem_cons.mp hz with rfl | hz'
        · exact verLe_refl _
        · exact verLe_trans (hy_max z hz') hxy
      · rw [if_neg hxy] at hs
        obtain ⟨rfl, rfl⟩ := List.cons.injEq .. |>.mp hs
        refine ⟨List.mem_cons_of_mem _ hy_mem, ?_⟩
        intro z hz
        rcases List.mem_cons.mp hz with rfl | hz'
        · rcases verLe_total (entryKey y) (entryKey z) with hle | hle
          · exact absurd hle hxy
          · exact hle
        · exact hy_max z hz'

/-- C8: `getPublished` queries `pnpm info` bounded by `<= version`; on a
failed query or with no valid entry the result is `null`; otherwise the
result is a valid entry whose version dominates every other valid entry
(under the semver order of the model, for parseable versions), with
`gitHead` taken from that entry when it is a string and `null` otherwise. -/
theorem getPublished_selects_highest (stdoutJson : Option Json)
    (id bound : String) :
    getPublishedFrom false stdoutJson = none ∧
    (id ++ "@<=" ++ bound) ∈ pnpmInfoArgs id bound ∧
    ((validRegistryEntries stdoutJson).isEmpty = true →
      getPublishedFrom true stdoutJson = none) ∧
    ((validRegistryEntries stdoutJson).isEmpty = false →
      (∀ e ∈ validRegistryEntries stdoutJson,
        ((entryVersion? e).bind parseSemVer).isSome = true) →
      ∃ e ∈ validRegistryEntries stdoutJson,
        getPublishedFrom true stdoutJson
          = some ⟨(entryVersion? e).getD "", entryGitHead e⟩ ∧
        ∀ e' ∈ validRegistryEntries stdoutJson, entryGe e e' = true) := by
  refine ⟨by simp [getPublishedFrom], by simp [pnpmInfoArgs], ?_, ?_⟩
  · intro h
    rw [List.isEmpty_iff] at h
    simp [getPublishedFrom, h, sortByGe]
  · intro hne _
    rcases hs : sortByGe (validRegistryEntries stdoutJson) with _ | ⟨info, rest⟩
    · rw [sortByGe_eq_nil hs, List.isEmpty_nil] at hne
      exact absurd hne (by decide)
    · obtain ⟨hmem, hmax⟩ := sortByGe_head_max hs
      exact ⟨info, hmem, by simp [getPublishedFrom, hs], hmax⟩

/-- C8 witness: of two valid registry entries (`1.0.0` with a string
`gitHead`, `2.0.0` without one) among junk entries, the `2.0.0` one is
selected, with a `null` `gitHead`. -/
theorem getPublished_selects_highest_witness :
    (∃ e ∈ validRegistryEntries (some (Json.arr
        [Json.obj [("version", Json.str "1.0.0"), ("gitHead", Json.str "abc")],
         Json.obj [("version", Json.str "2.0.0")],
         Json.str "junk", Json.null, Json.obj [("version", Json.num 3)]])),
      getPublishedFrom true (some (Json.arr
        [Json.obj [("version", Json.str "1.0.0"), ("gitHead", Json.str "abc")],
         Json.obj [("version", Json.str "2.0.0")],
         Json.str "junk", Json.null, Json.obj [("version", Json.num 3)]]))
        = some ⟨(entryVersion? e).getD "", entryGitHead e⟩ ∧
      ∀ e' ∈ validRegistryEntries (some (Json.arr
        [Json.obj [("version", Json.str "1.0.0"), ("gitHead", Json.str "abc")],
         Json.obj [("version", Json.str "2.0.0")],
         Json.str "junk", Json.null, Json.obj [("version", Json.num 3)]])),
        entryGe e e' = true) ∧
    getPublishedFrom true (some (Json.arr
        [Json.obj [("version", Json.str "1.0.0"), ("gitHead", Json.str "abc")],
         Json.obj [("version", Json.str "2.0.0")],
         Json.str "junk", Json.null, Json.obj [("version", Json.num 3)]]))
      = some ⟨"2.0.0", none⟩ := by
  constructor
  · exact (getPublished_selects_highest _ "pkg" "3.0.0").2.2.2
      (by decide) (by decide)
  · decide

end Npmws
